import Mathlib

/-!
Shallow embedding of `src/print_mem.c` (the i3status memory formatter) and
proofs about it.  C `unsigned long` arithmetic is modelled as `Nat` with an
explicit `% 2 ^ 64`; C strings are modelled as `List Char` (NUL-free); the
line-oriented reading of `/proc/meminfo` is modelled as a fold over a list of
lines, with an `Option (List (List Char))` input whose `none` case stands for
a failing `fopen`.  Counters that the C code leaves uninitialized are
modelled as `Option Nat` fields that stay `none`; executions whose result
would depend on an uninitialized read are mapped to `none` at the top level.
The `double` value in `print_bytes_human` only ever holds a byte count
divided by powers of 1024, which is exact in binary floating point for the
magnitudes involved, so it is modelled as the exact fraction
`bytes / 1024 ^ exponent`; `sprintf "%.*f"` is modelled as exact rounding
half-to-even of that fraction.
-/

namespace PrintMem

/-- `2^64`, the modulus of C `unsigned long` arithmetic on the target. -/
def M64 : Nat := 2 ^ 64

/-- `ULONG_MAX`. -/
def ULONG_MAX : Nat := 2 ^ 64 - 1

/-- `BINARY_BASE` from the source. -/
def BINARY_BASE : Nat := 1024

/-- C `isspace` on the default locale. -/
def isspaceC (c : Char) : Bool :=
  c == ' ' || c == '\t' || c == '\n' || c == '\x0b' || c == '\x0c' || c == '\r'

/-- Numeric value of a decimal digit character. -/
def digitVal (c : Char) : Nat := c.toNat - 48

/-- Accumulate the value of a run of leading decimal digits, returning the
value together with the unconsumed remainder of the string. -/
def digitsVal : Nat → List Char → Nat × List Char
  | acc, [] => (acc, [])
  | acc, c :: cs =>
    if c.isDigit then digitsVal (acc * 10 + digitVal c) cs else (acc, c :: cs)

/-- Model of `strtoul(s, &endptr, 10)` as used by `memory_absolute` and the
meminfo field parser: skip leading whitespace, read a run of decimal digits
(clamping to `ULONG_MAX` on overflow, per the C standard), and return the
value together with the rest of the string (`endptr`).  If no digits are
present the value is 0 and `endptr` is the original string.  (The optional
sign accepted by `strtoul` is not exercised by any input considered here and
is not modelled.) -/
def strtoul10 (s : List Char) : Nat × List Char :=
  match s.dropWhile isspaceC with
  | [] => (0, s)
  | c :: cs =>
    if c.isDigit then
      let p := digitsVal (digitVal c) cs
      (min p.1 ULONG_MAX, p.2)
    else (0, s)

/-- One wrapping `unsigned long` multiplication, `a * b` mod `2^64`. -/
def wmul (a b : Nat) : Nat := a * b % M64

/-- Embedding of `memory_absolute` from `src/print_mem.c`: parse a leading
unsigned decimal integer, skip whitespace, then dispatch on the next
character.  The C `switch` falls through from `T` down to `K`, so each
suffix performs the multiplications of the suffixes below it; every
`amount *= BINARY_BASE` is one wrapping multiplication `wmul · 1024`.
`endptr[0]` on an exhausted string reads the NUL terminator, here the
default branch. -/
def memory_absolute (mem_amount : List Char) (mem_total : Nat) : Nat :=
  let p := strtoul10 mem_amount
  let endp := p.2.dropWhile isspaceC
  match endp with
  | [] => p.1
  | c :: _ =>
    if c == 'T' || c == 't' then wmul (wmul (wmul (wmul p.1 BINARY_BASE) BINARY_BASE) BINARY_BASE) BINARY_BASE
    else if c == 'G' || c == 'g' then wmul (wmul (wmul p.1 BINARY_BASE) BINARY_BASE) BINARY_BASE
    else if c == 'M' || c == 'm' then wmul (wmul p.1 BINARY_BASE) BINARY_BASE
    else if c == 'K' || c == 'k' then wmul p.1 BINARY_BASE
    else if c == '%' then wmul mem_total p.1 / 100
    else p.1

/-- The mathematical value of a digit string, most significant digit first. -/
def natOfDigits (ds : List Char) : Nat :=
  ds.foldl (fun a c => a * 10 + digitVal c) 0

/-- The number of `amount *= BINARY_BASE` steps the fall-through `switch` in
`memory_absolute` performs for each suffix character. -/
def suffixExp (c : Char) : Nat :=
  if c == 'T' || c == 't' then 4
  else if c == 'G' || c == 'g' then 3
  else if c == 'M' || c == 'm' then 2
  else if c == 'K' || c == 'k' then 1
  else 0

/-- The `BEGINS_WITH(haystack, needle)` macro from `i3status.h`:
`strncmp(haystack, needle, strlen(needle)) == 0`. -/
def beginsWith : List Char → List Char → Bool
  | _, [] => true
  | [], _ :: _ => false
  | c :: cs, p :: ps => c == p && beginsWith cs ps

/-- The `iec_symbols` table from the source. -/
def iec_symbols : List (List Char) :=
  ["B".data, "KiB".data, "MiB".data, "GiB".data, "TiB".data]

/-- `MAX_EXPONENT`, the last valid index into `iec_symbols`. -/
def MAX_EXPONENT : Nat := 4

/-- `strcasecmp(a, b) == 0` for ASCII strings. -/
def strcaseEq (a b : List Char) : Bool :=
  a.map Char.toLower == b.map Char.toLower

/-- Round the fraction `p / q` to the nearest natural number, ties to even:
the default rounding `sprintf` applies when formatting a `double` holding
that value exactly. -/
def roundHalfEvenFrac (p q : Nat) : Nat :=
  let d := p / q
  let r := p % q
  if 2 * r < q then d
  else if q < 2 * r then d + 1
  else if d % 2 = 0 then d else d + 1

/-- Left-pad a string with zeros to the given width. -/
def padZeros (s : String) (w : Nat) : String :=
  String.mk (List.replicate (w - s.length) '0') ++ s

/-- Model of `sprintf("%.*f", decimals, num / den)` for a nonnegative value:
round the fraction scaled by `10 ^ decimals` to the nearest integer (ties to
even) and print integer and fraction parts. -/
def formatFixedFrac (num den : Nat) (decimals : Nat) : String :=
  let n := roundHalfEvenFrac (num * 10 ^ decimals) den
  let ip := n / 10 ^ decimals
  let fp := n % 10 ^ decimals
  if decimals = 0 then Nat.repr ip
  else Nat.repr ip ++ "." ++ padZeros (Nat.repr fp) decimals

/-- The `while` loop of `print_bytes_human`, written with an explicit fuel
argument: each iteration increments `exponent` and the loop guard requires
`exponent < MAX_EXPONENT`, so any fuel of at least `MAX_EXPONENT` runs the
loop to completion (the wrapper below passes exactly that).  The `double`
variable `base` always holds exactly `bytes / 1024 ^ exponent` (dividing by
1024 only shifts the binary exponent), so the loop tracks `exponent` and the
guard `base >= BINARY_BASE` becomes `1024 ^ (exponent + 1) ≤ bytes`. -/
def humanLoop (unit : List Char) : Nat → Nat → Nat → Nat
  | 0, _, exponent => exponent
  | fuel + 1, bytes, exponent =>
    if BINARY_BASE ^ (exponent + 1) ≤ bytes ∧ exponent < MAX_EXPONENT then
      if strcaseEq unit (iec_symbols.getD exponent []) then exponent
      else humanLoop unit fuel bytes (exponent + 1)
    else exponent

/-- Embedding of `print_bytes_human` from the source: scale the byte count
down by 1024 while it stays at least `BINARY_BASE` and a larger unit exists,
stopping early when the configured unit name matches the current symbol
case-insensitively, then format `bytes / 1024 ^ exponent` (the exact value
of the `double` `base`) with the configured decimals, a space and the unit
symbol. -/
def print_bytes_human (bytes : Nat) (unit : List Char) (decimals : Nat) : String :=
  let e := humanLoop unit MAX_EXPONENT bytes 0
  formatFixedFrac bytes (BINARY_BASE ^ e) decimals ++ " " ++ String.mk (iec_symbols.getD e [])

/-- One wrapping `unsigned long` subtraction, `a - b` mod `2^64`. -/
def sub64 (a b : Nat) : Nat := (a + (M64 - b % M64)) % M64

/-- The `ram_used` computation of `print_memory`.  The C code declares
`unsigned long ram_used;` and assigns it only in the two `BEGINS_WITH`
branches; a method string matching neither prefix leaves it uninitialized,
modelled here as `none`. -/
def compute_used (memory_used_method : List Char) (ram_total ram_free ram_available ram_buffers ram_cached : Nat) : Option Nat :=
  if beginsWith memory_used_method ("memavailable".data) then
    some (sub64 ram_total ram_available)
  else if beginsWith memory_used_method ("classical".data) then
    some (sub64 (sub64 (sub64 ram_total ram_free) ram_buffers) ram_cached)
  else none

/-- The threshold checks of `print_memory`: `output_color` starts `NULL`,
the degraded check may set it to `"color_degraded"`, and the critical check,
performed second, may overwrite it with `"color_bad"`.  A threshold that is
not configured (`NULL`, here `none`) is never evaluated. -/
def output_color (threshold_degraded threshold_critical : Option (List Char)) (ram_available ram_total : Nat) : Option String :=
  let c1 : Option String :=
    match threshold_degraded with
    | none => none
    | some t => if ram_available < memory_absolute t ram_total then some "color_degraded" else none
  match threshold_critical with
  | none => c1
  | some t => if ram_available < memory_absolute t ram_total then some "color_bad" else c1

/-- The format selection of `print_memory`: `selected_format` starts as
`format` and is replaced by `format_degraded` only inside the
`if (output_color)` block, and only when `format_degraded` is configured. -/
def selected_format (format : List Char) (format_degraded : Option (List Char)) (oc : Option String) : List Char :=
  match oc with
  | none => format
  | some _ =>
    match format_degraded with
    | none => format
    | some f => f

/-- The snapshot values the renderer reads: `ram_total`, `ram_used`,
`ram_free`, `ram_available`, `ram_shared` (all in bytes). -/
structure MemVals where
  ram_total : Nat
  ram_used : Nat
  ram_free : Nat
  ram_available : Nat
  ram_shared : Nat
deriving DecidableEq

/-- Rendering of one `%percentage_*` token:
`sprintf(outwalk, "%.01f%s", 100.0 * value / ram_total, pct_mark)`, with the
`double` quotient modelled as the exact fraction `100 * value / total`. -/
def pctStr (value total : Nat) (pct : String) : String :=
  formatFixedFrac (100 * value) total 1 ++ pct

/-- The `BEGINS_WITH(walk + 1, ...)` chain of the rendering loop, in source
order, applied to the characters after a `%`: the rendered substitution and
the number of token characters consumed (`walk += strlen(token)`), or `none`
when no token matches (the final `else`). -/
def matchToken (v : MemVals) (unit : List Char) (decimals : Nat) (pct : String) (rest : List Char) : Option (String × Nat) :=
  if beginsWith rest ("total".data) then
    some (print_bytes_human v.ram_total unit decimals, 5)
  else if beginsWith rest ("used".data) then
    some (print_bytes_human v.ram_used unit decimals, 4)
  else if beginsWith rest ("free".data) then
    some (print_bytes_human v.ram_free unit decimals, 4)
  else if beginsWith rest ("available".data) then
    some (print_bytes_human v.ram_available unit decimals, 9)
  else if beginsWith rest ("shared".data) then
    some (print_bytes_human v.ram_shared unit decimals, 6)
  else if beginsWith rest ("percentage_free".data) then
    some (pctStr v.ram_free v.ram_total pct, 15)
  else if beginsWith rest ("percentage_available".data) then
    some (pctStr v.ram_available v.ram_total pct, 20)
  else if beginsWith rest ("percentage_used".data) then
    some (pctStr v.ram_used v.ram_total pct, 15)
  else if beginsWith rest ("percentage_shared".data) then
    some (pctStr v.ram_shared v.ram_total pct, 17)
  else none

/-- The template-walking loop of `print_memory`, with an explicit fuel
argument: each iteration consumes at least the one character `walk` points
at, so any fuel of at least the template length runs the loop to completion
(the wrapper below passes exactly that).  A literal character is copied; a
`%` followed by a recognized token emits the substitution and skips the
token; a `%` followed by no token emits a literal `%` and scanning resumes
at the next character. -/
def renderF (v : MemVals) (unit : List Char) (decimals : Nat) (pct : String) : Nat → List Char → String
  | _, [] => ""
  | 0, _ :: _ => ""
  | fuel + 1, c :: rest =>
    if c ≠ '%' then String.singleton c ++ renderF v unit decimals pct fuel rest
    else
      match matchToken v unit decimals pct rest with
      | some (out, n) => out ++ renderF v unit decimals pct fuel (rest.drop n)
      | none => "%" ++ renderF v unit decimals pct fuel rest

/-- The template renderer: walk the whole template. -/
def render (v : MemVals) (unit : List Char) (decimals : Nat) (pct : String) (fmt : List Char) : String :=
  renderF v unit decimals pct fmt.length fmt

/-- The local counters of the Linux `/proc/meminfo` reading loop.  The C
code declares the six `unsigned long` counters without initializers;
a counter that no line assigned is uninitialized, modelled as `none`. -/
structure MeminfoState where
  unread_fields : Nat
  ram_total : Option Nat
  ram_free : Option Nat
  ram_available : Option Nat
  ram_buffers : Option Nat
  ram_cached : Option Nat
  ram_shared : Option Nat
deriving DecidableEq

/-- The counters before the loop: `unread_fields = 6`, nothing assigned. -/
def initState : MeminfoState := ⟨6, none, none, none, none, none, none⟩

/-- `strtoul(line + strlen(label), NULL, 10)` for one meminfo line. -/
def parseField (l : List Char) (label : List Char) : Nat :=
  (strtoul10 (l.drop label.length)).1

/-- The `BEGINS_WITH` chain of the meminfo loop body applied to one line:
the updated counters plus whether the line matched (the `else { continue; }`
case returns `false` and leaves the state unchanged). -/
def stepLine (st : MeminfoState) (l : List Char) : MeminfoState × Bool :=
  if beginsWith l ("MemTotal:".data) then
    ({ st with ram_total := some (parseField l ("MemTotal:".data)) }, true)
  else if beginsWith l ("MemFree:".data) then
    ({ st with ram_free := some (parseField l ("MemFree:".data)) }, true)
  else if beginsWith l ("MemAvailable:".data) then
    ({ st with ram_available := some (parseField l ("MemAvailable:".data)) }, true)
  else if beginsWith l ("Buffers:".data) then
    ({ st with ram_buffers := some (parseField l ("Buffers:".data)) }, true)
  else if beginsWith l ("Cached:".data) then
    ({ st with ram_cached := some (parseField l ("Cached:".data)) }, true)
  else if beginsWith l ("Shmem:".data) then
    ({ st with ram_shared := some (parseField l ("Shmem:".data)) }, true)
  else (st, false)

/-- Whether a meminfo line matches one of the six recognized labels; equal
to the second component of `stepLine`. -/
def matchesLabel (l : List Char) : Bool :=
  beginsWith l ("MemTotal:".data) || beginsWith l ("MemFree:".data) ||
  beginsWith l ("MemAvailable:".data) || beginsWith l ("Buffers:".data) ||
  beginsWith l ("Cached:".data) || beginsWith l ("Shmem:".data)

/-- The `fgets` loop over the lines of `/proc/meminfo`: every matching line
assigns its counter and decrements `unread_fields`; the loop breaks as soon
as `unread_fields` reaches 0. -/
def readLoop : List (List Char) → MeminfoState → MeminfoState
  | [], st => st
  | l :: ls, st =>
    let p := stepLine st l
    if p.2 then
      let st2 : MeminfoState := { p.1 with unread_fields := p.1.unread_fields - 1 }
      if st2.unread_fields = 0 then st2 else readLoop ls st2
    else readLoop ls p.1

/-- One `ram_* *= 1024UL` conversion from kB to B (skipping counters that
were never assigned). -/
def scale1024 (o : Option Nat) : Option Nat := o.map (fun v => v * 1024 % M64)

/-- The Linux branch of the memory reader: `none` input models a failing
`fopen`; otherwise run the line loop, fail (`goto error`) when
`unread_fields > 0`, and convert all counters from kB to B on success. -/
def read_meminfo (file : Option (List (List Char))) : Option MeminfoState :=
  match file with
  | none => none
  | some lines =>
    let st := readLoop lines initState
    if 0 < st.unread_fields then none
    else some { st with
      ram_total := scale1024 st.ram_total,
      ram_free := scale1024 st.ram_free,
      ram_available := scale1024 st.ram_available,
      ram_buffers := scale1024 st.ram_buffers,
      ram_cached := scale1024 st.ram_cached,
      ram_shared := scale1024 st.ram_shared }

/-- What one call of `print_memory` produces: the full text written to the
output buffer, the color passed to `START_COLOR` (if any), and the line
written to `stderr` (if any). -/
structure MemOutput where
  text : String
  color : Option String
  diag : Option String
deriving DecidableEq

/-- The output of the `error:` label: `OUTPUT_FULL_TEXT("can't read memory")`
plus the `stderr` diagnostic. -/
def errorOutput : MemOutput :=
  { text := "can't read memory", color := none,
    diag := some "i3status: Cannot read system memory" }

/-- Embedding of `print_memory` (Linux branch).  A failing read jumps to the
`error:` label before any formatting.  On a successful read, an execution
whose outcome would depend on an uninitialized `unsigned long` (a counter no
line assigned, or `ram_used` with a method matching neither prefix) has no
defined result and is mapped to `none`. -/
def print_memory (file : Option (List (List Char))) (format : List Char)
    (format_degraded : Option (List Char))
    (threshold_degraded threshold_critical : Option (List Char))
    (memory_used_method : List Char) (unit : List Char) (decimals : Nat)
    (pct : String) : Option MemOutput :=
  match read_meminfo file with
  | none => some errorOutput
  | some st =>
    match st.ram_total, st.ram_free, st.ram_available, st.ram_buffers, st.ram_cached, st.ram_shared with
    | some t, some f, some a, some b, some ch, some sh =>
      match compute_used memory_used_method t f a b ch with
      | none => none
      | some used =>
        let oc := output_color threshold_degraded threshold_critical a t
        let fmt := selected_format format format_degraded oc
        some { text := render ⟨t, used, f, a, sh⟩ unit decimals pct fmt,
               color := oc, diag := none }
    | _, _, _, _, _, _ => none

end PrintMem

namespace PrintMem

lemma isDigit_false_of_isspaceC (c : Char) (h : isspaceC c = true) : c.isDigit = false := by
  simp only [isspaceC, Bool.or_eq_true, beq_iff_eq] at h
  rcases h with ((((h | h) | h) | h) | h) | h <;> subst h <;> decide

lemma isspaceC_false_of_isDigit (c : Char) (h : c.isDigit = true) : isspaceC c = false := by
  by_contra hs
  rw [Bool.not_eq_false] at hs
  have h2 := isDigit_false_of_isspaceC c hs
  rw [h2] at h
  exact absurd h (by decide)

lemma digitsVal_append : ∀ (ds : List Char) (acc : Nat) (rest : List Char),
    (∀ c ∈ ds, c.isDigit = true) →
    (∀ c tl, rest = c :: tl → c.isDigit = false) →
    digitsVal acc (ds ++ rest) = (ds.foldl (fun a c => a * 10 + digitVal c) acc, rest)
  | [], acc, rest, _, hr => by
    cases rest with
    | nil => simp [digitsVal]
    | cons c tl => simp [digitsVal, hr c tl rfl]
  | d :: ds, acc, rest, hd, hr => by
    have hdd : d.isDigit = true := hd d (List.mem_cons_self d ds)
    rw [List.cons_append]
    rw [show digitsVal acc (d :: (ds ++ rest)) =
        digitsVal (acc * 10 + digitVal d) (ds ++ rest) by simp [digitsVal, hdd]]
    rw [digitsVal_append ds (acc * 10 + digitVal d) rest
        (fun c hc => hd c (List.mem_cons_of_mem d hc)) hr]
    simp [List.foldl]

lemma dropWhile_ws : ∀ (ws : List Char) (c : Char) (tl : List Char),
    (∀ w ∈ ws, isspaceC w = true) → isspaceC c = false →
    (ws ++ c :: tl).dropWhile isspaceC = c :: tl
  | [], c, tl, _, hc => by simp [List.dropWhile, hc]
  | w :: ws, c, tl, hw, hc => by
    have hww : isspaceC w = true := hw w (List.mem_cons_self w ws)
    rw [List.cons_append, List.dropWhile_cons_of_pos hww]
    exact dropWhile_ws ws c tl (fun x hx => hw x (List.mem_cons_of_mem w hx)) hc

lemma strtoul10_digits (ds ws : List Char) (c : Char)
    (hds : ds ≠ []) (hd : ∀ d ∈ ds, d.isDigit = true)
    (hw : ∀ w ∈ ws, isspaceC w = true)
    (hcd : c.isDigit = false) (hN : natOfDigits ds < M64) :
    strtoul10 (ds ++ (ws ++ [c])) = (natOfDigits ds, ws ++ [c]) := by
  obtain ⟨d, ds', rfl⟩ : ∃ d ds', ds = d :: ds' := by
    cases ds with
    | nil => exact absurd rfl hds
    | cons d ds' => exact ⟨d, ds', rfl⟩
  have hdd : d.isDigit = true := hd d (List.mem_cons_self d ds')
  have hrest : ∀ x tl, ws ++ [c] = x :: tl → x.isDigit = false := by
    intro x tl hx
    cases ws with
    | nil =>
      simp only [List.nil_append] at hx
      cases hx
      exact hcd
    | cons w ws' =>
      simp only [List.cons_append] at hx
      cases hx
      exact isDigit_false_of_isspaceC x (hw x (List.mem_cons_self x ws'))
  have h1 : ((d :: ds') ++ (ws ++ [c])).dropWhile isspaceC = d :: (ds' ++ (ws ++ [c])) := by
    rw [List.cons_append, List.dropWhile_cons_of_neg]
    simp [isspaceC_false_of_isDigit d hdd]
  unfold strtoul10
  rw [h1]
  simp only [hdd, if_true]
  rw [digitsVal_append ds' (digitVal d) (ws ++ [c])
      (fun x hx => hd x (List.mem_cons_of_mem d hx)) hrest]
  have hfold : List.foldl (fun a c => a * 10 + digitVal c) (digitVal d) ds' =
      natOfDigits (d :: ds') := by
    simp [natOfDigits, List.foldl]
  rw [hfold]
  have hmin : min (natOfDigits (d :: ds')) ULONG_MAX = natOfDigits (d :: ds') := by
    have : natOfDigits (d :: ds') ≤ ULONG_MAX := by
      unfold M64 at hN; unfold ULONG_MAX; omega
    exact Nat.min_eq_left this
  rw [hmin]

/-- C1 (counterexample): the claim resolves "1M" to 1·1024³, "1G" to 1·1024⁴
and "1T" to 1·1024⁵; the code resolves them to 1024², 1024³ and 1024⁴. -/
theorem C1_counterexample :
    memory_absolute ("1M".data) 0 = 1024 ^ 2 ∧ memory_absolute ("1M".data) 0 ≠ 1 * 1024 ^ 3 ∧
    memory_absolute ("1G".data) 0 = 1024 ^ 3 ∧ memory_absolute ("1G".data) 0 ≠ 1 * 1024 ^ 4 ∧
    memory_absolute ("1T".data) 0 = 1024 ^ 4 ∧ memory_absolute ("1T".data) 0 ≠ 1 * 1024 ^ 5 := by
  decide

/-- C1 (amended): for every valid threshold spec, an unsigned decimal
integer N followed after optional whitespace by a unit suffix, the resolved
value is N·1024 for k/K, N·1024² for m/M, N·1024³ for g/G and N·1024⁴ for
t/T, taken modulo 2⁶⁴, each suffix case compounding the multiplications of
the cases below it. -/
theorem C1_suffix_cascade (ds ws : List Char) (c : Char) (total : Nat)
    (hds : ds ≠ []) (hd : ∀ d ∈ ds, d.isDigit = true)
    (hw : ∀ w ∈ ws, isspaceC w = true)
    (hc : c = 'k' ∨ c = 'K' ∨ c = 'm' ∨ c = 'M' ∨ c = 'g' ∨ c = 'G' ∨ c = 't' ∨ c = 'T')
    (hN : natOfDigits ds < M64) :
    memory_absolute (ds ++ ws ++ [c]) total = natOfDigits ds * 1024 ^ suffixExp c % M64 := by
  have hcd : c.isDigit = false := by
    rcases hc with rfl | rfl | rfl | rfl | rfl | rfl | rfl | rfl <;> decide
  have hcs : isspaceC c = false := by
    rcases hc with rfl | rfl | rfl | rfl | rfl | rfl | rfl | rfl <;> decide
  rw [List.append_assoc]
  unfold memory_absolute
  rw [strtoul10_digits ds ws c hds hd hw hcd hN]
  simp only
  rw [show (ws ++ [c]).dropWhile isspaceC = c :: [] from dropWhile_ws ws c [] hw hcs]
  rcases hc with rfl | rfl | rfl | rfl | rfl | rfl | rfl | rfl <;>
    simp [suffixExp, wmul, BINARY_BASE, Nat.mod_mul_mod] <;>
    ring_nf

theorem C1_suffix_cascade_witness :
    memory_absolute ("2".data ++ [] ++ ['M']) 0 =
      natOfDigits ("2".data) * 1024 ^ suffixExp 'M' % M64 :=
  C1_suffix_cascade ("2".data) [] 'M' 0 (by decide) (by decide) (by decide)
    (by decide) (by decide)

/-- C2 (counterexample): on a failing read (here only four of the six
required fields are present) the fixed output text is "can't read memory",
not the claimed "cannot read memory". -/
theorem C2_counterexample :
    print_memory (some ["MemTotal: 1".data, "MemFree: 1".data, "Buffers: 1".data, "Cached: 1".data])
      ("%total".data) none none none ("memavailable".data) ("auto".data) 1 "%" = some errorOutput ∧
    errorOutput.text ≠ "cannot read memory" := by
  constructor
  · decide
  · decide

/-- C2 (amended): whenever the memory read fails, by I/O error or fewer than
six required fields before end of input, the output is exactly the fixed
failure string "can't read memory" together with the diagnostic
"i3status: Cannot read system memory" on the error stream, independently of
every formatting input: no template formatting is performed. -/
theorem C2_read_failure_output (file : Option (List (List Char))) (format : List Char)
    (fd td tc : Option (List Char)) (method unit : List Char) (decimals : Nat)
    (pct : String) (h : read_meminfo file = none) :
    print_memory file format fd td tc method unit decimals pct = some errorOutput := by
  unfold print_memory
  rw [h]

theorem C2_read_failure_output_witness :
    print_memory (some ["MemTotal: 1".data, "MemFree: 1".data, "Shmem: 1".data, "Cached: 1".data])
      ("%used".data) none (some ("1K".data)) none ("classical".data) ("auto".data) 2 "%"
      = some errorOutput :=
  C2_read_failure_output _ _ _ _ _ _ _ _ _ (by decide)

/-- C3: the degraded check fires only when a degraded threshold is
configured and `available` is below its resolved value; the critical check
is evaluated after it and overwrites the color; an absent threshold is
skipped entirely; when no configured condition holds the state is normal. -/
theorem C3_threshold_classification :
    (∀ td tc avail total,
        avail < memory_absolute td total →
        (∀ t, tc = some t → ¬ avail < memory_absolute t total) →
        output_color (some td) tc avail total = some "color_degraded")
  ∧ (∀ td tc avail total,
        avail < memory_absolute tc total →
        output_color td (some tc) avail total = some "color_bad")
  ∧ (∀ td tc avail total,
        (∀ t, td = some t → ¬ avail < memory_absolute t total) →
        (∀ t, tc = some t → ¬ avail < memory_absolute t total) →
        output_color td tc avail total = none) := by
  refine ⟨?_, ?_, ?_⟩
  · intro td tc avail total hlt hc
    unfold output_color
    cases tc with
    | none => simp [hlt]
    | some t => simp [hlt, hc t rfl]
  · intro td tc avail total hlt
    unfold output_color
    cases td with
    | none => simp [hlt]
    | some t => simp [hlt]
  · intro td tc avail total hd hc
    unfold output_color
    cases td with
    | none =>
      cases tc with
      | none => simp
      | some t => simp [hc t rfl]
    | some t =>
      cases tc with
      | none => simp [hd t rfl]
      | some t2 => simp [hd t rfl, hc t2 rfl]

theorem C3_threshold_classification_witness :
    output_color (some ("2K".data)) (some ("1K".data)) 1500 0 = some "color_degraded" :=
  C3_threshold_classification.1 ("2K".data) (some ("1K".data)) 1500 0 (by decide)
    (by intro t ht; injection ht with h2; subst h2; decide)

/-- C4: under the memavailable policy `used = total - available` and under
the classical policy `used = total - free - buffers - cached`, as wrapping
64-bit subtractions: they agree with true subtraction when the counters are
consistent, wrap modulo 2⁶⁴ instead of clamping when they are not, and the
two policies can differ on the same snapshot. -/
theorem C4_used_policies :
    (∀ t f a b c : Nat, a ≤ t → t < M64 →
        compute_used ("memavailable".data) t f a b c = some (t - a))
  ∧ (∀ t f a b c : Nat, f + b + c ≤ t → t < M64 →
        compute_used ("classical".data) t f a b c = some (t - f - b - c))
  ∧ compute_used ("memavailable".data) 0 0 1 0 0 = some (2 ^ 64 - 1)
  ∧ (∃ t f a b c u v, compute_used ("memavailable".data) t f a b c = some u ∧
        compute_used ("classical".data) t f a b c = some v ∧ u ≠ v) := by
  have hM : M64 = 18446744073709551616 := by norm_num [M64]
  refine ⟨?_, ?_, by decide, ⟨100, 10, 30, 0, 0, 70, 90, by decide, by decide, by decide⟩⟩
  · intro t f a b c hat htM
    have hbw : beginsWith ("memavailable".data) ("memavailable".data) = true := by decide
    simp only [compute_used, hbw, if_true]
    congr 1
    simp only [sub64, hM]
    rw [hM] at htM
    omega
  · intro t f a b c hsum htM
    have hbw1 : beginsWith ("classical".data) ("memavailable".data) = false := by decide
    have hbw2 : beginsWith ("classical".data) ("classical".data) = true := by decide
    simp only [compute_used, hbw1, hbw2, if_true, Bool.false_eq_true, if_false]
    congr 1
    simp only [sub64, hM]
    rw [hM] at htM
    omega

theorem C4_used_policies_witness :
    compute_used ("memavailable".data) 100 0 30 0 0 = some 70 :=
  C4_used_policies.1 100 0 30 0 0 (by decide) (by decide)

/-- C5: for every valid percentage threshold spec, an unsigned decimal
integer N followed after optional whitespace by a percent sign, the
resolved value is `total * N / 100` with truncating integer division. -/
theorem C5_percent_threshold (ds ws : List Char) (total : Nat)
    (hds : ds ≠ []) (hd : ∀ d ∈ ds, d.isDigit = true)
    (hw : ∀ w ∈ ws, isspaceC w = true)
    (hN : natOfDigits ds < M64) (hT : total * natOfDigits ds < M64) :
    memory_absolute (ds ++ ws ++ ['%']) total = total * natOfDigits ds / 100 := by
  rw [List.append_assoc]
  unfold memory_absolute
  rw [strtoul10_digits ds ws '%' hds hd hw (by decide) hN]
  simp only
  rw [show (ws ++ ['%']).dropWhile isspaceC = '%' :: [] from dropWhile_ws ws '%' [] hw (by decide)]
  simp [wmul, Nat.mod_eq_of_lt hT]

theorem C5_percent_threshold_witness :
    memory_absolute ("50".data ++ [' '] ++ ['%']) 1000 =
      1000 * natOfDigits ("50".data) / 100 :=
  C5_percent_threshold ("50".data) [' '] 1000 (by decide) (by decide) (by decide)
    (by decide) (by decide)

/-- C6: with automatic unit selection and 1 decimal, 1024 bytes renders as
"1.0 KiB", 1048576 bytes as "1.0 MiB" and 512 bytes as "512.0 B"; with a
unit requested by name the division stops early at that unit,
case-insensitively. -/
theorem C6_human_rendering :
    print_bytes_human 1024 ("auto".data) 1 = "1.0 KiB"
  ∧ print_bytes_human 1048576 ("auto".data) 1 = "1.0 MiB"
  ∧ print_bytes_human 512 ("auto".data) 1 = "512.0 B"
  ∧ print_bytes_human 1048576 ("kib".data) 1 = "1024.0 KiB" := by
  refine ⟨by decide, by decide, by decide, by decide⟩

/-- C7: a `%` not followed by one of the nine token names emits a literal
`%` and scanning resumes at the immediately following character, with no
token consumed. -/
theorem C7_unknown_token (v : MemVals) (unit : List Char) (decimals : Nat)
    (pct : String) (rest : List Char)
    (h1 : beginsWith rest ("total".data) = false)
    (h2 : beginsWith rest ("used".data) = false)
    (h3 : beginsWith rest ("free".data) = false)
    (h4 : beginsWith rest ("available".data) = false)
    (h5 : beginsWith rest ("shared".data) = false)
    (h6 : beginsWith rest ("percentage_free".data) = false)
    (h7 : beginsWith rest ("percentage_available".data) = false)
    (h8 : beginsWith rest ("percentage_used".data) = false)
    (h9 : beginsWith rest ("percentage_shared".data) = false) :
    render v unit decimals pct ('%' :: rest) = "%" ++ render v unit decimals pct rest := by
  have hm : matchToken v unit decimals pct rest = none := by
    simp [matchToken, h1, h2, h3, h4, h5, h6, h7, h8, h9]
  simp only [render, List.length_cons]
  rw [renderF]
  simp [hm]

theorem C7_unknown_token_witness :
    render ⟨0, 0, 0, 0, 0⟩ ("auto".data) 1 "%" ('%' :: "bogus".data) =
      "%" ++ render ⟨0, 0, 0, 0, 0⟩ ("auto".data) 1 "%" ("bogus".data) :=
  C7_unknown_token ⟨0, 0, 0, 0, 0⟩ ("auto".data) 1 "%" ("bogus".data)
    (by decide) (by decide) (by decide) (by decide) (by decide)
    (by decide) (by decide) (by decide) (by decide)

/-- C8: the degraded-format override is used exactly when the color state is
non-normal (degraded or critical) and the override is configured; in every
other case the primary template is used, and which non-normal color was
selected never changes the selection: the critical state has no template of
its own. -/
theorem C8_format_selection :
    (∀ fmt fd col, selected_format fmt (some fd) (some col) = fd)
  ∧ (∀ fmt fd, selected_format fmt fd none = fmt)
  ∧ (∀ fmt col, selected_format fmt none (some col) = fmt)
  ∧ (∀ fmt fd col col', selected_format fmt fd (some col) = selected_format fmt fd (some col')) := by
  refine ⟨fun fmt fd col => rfl, fun fmt fd => rfl, fun fmt col => rfl, ?_⟩
  intro fmt fd col col'
  cases fd <;> rfl

lemma unread_set (s : MeminfoState) (n : Nat) :
    ({ s with unread_fields := n } : MeminfoState).unread_fields = n := rfl

lemma stepLine_snd (st : MeminfoState) (l : List Char) :
    (stepLine st l).2 = matchesLabel l := by
  unfold stepLine matchesLabel
  by_cases h1 : beginsWith l ("MemTotal:".data) = true <;>
    by_cases h2 : beginsWith l ("MemFree:".data) = true <;>
    by_cases h3 : beginsWith l ("MemAvailable:".data) = true <;>
    by_cases h4 : beginsWith l ("Buffers:".data) = true <;>
    by_cases h5 : beginsWith l ("Cached:".data) = true <;>
    by_cases h6 : beginsWith l ("Shmem:".data) = true <;>
    simp [h1, h2, h3, h4, h5, h6]

lemma stepLine_unread (st : MeminfoState) (l : List Char) :
    (stepLine st l).1.unread_fields = st.unread_fields := by
  unfold stepLine
  by_cases h1 : beginsWith l ("MemTotal:".data) = true <;>
    by_cases h2 : beginsWith l ("MemFree:".data) = true <;>
    by_cases h3 : beginsWith l ("MemAvailable:".data) = true <;>
    by_cases h4 : beginsWith l ("Buffers:".data) = true <;>
    by_cases h5 : beginsWith l ("Cached:".data) = true <;>
    by_cases h6 : beginsWith l ("Shmem:".data) = true <;>
    simp [h1, h2, h3, h4, h5, h6]

lemma stepLine_of_no_match (st : MeminfoState) (l : List Char)
    (h : matchesLabel l = false) : stepLine st l = (st, false) := by
  unfold matchesLabel at h
  simp only [Bool.or_eq_false_iff] at h
  obtain ⟨⟨⟨⟨⟨h1, h2⟩, h3⟩, h4⟩, h5⟩, h6⟩ := h
  unfold stepLine
  simp [h1, h2, h3, h4, h5, h6]

lemma readLoop_unread : ∀ (lines : List (List Char)) (st : MeminfoState),
    1 ≤ st.unread_fields →
    (readLoop lines st).unread_fields =
      st.unread_fields - min (lines.countP matchesLabel) st.unread_fields
  | [], st, _ => by simp [readLoop]
  | l :: ls, st, h1 => by
    rw [readLoop]
    by_cases hm : matchesLabel l = true
    · rw [show (stepLine st l).2 = true from (stepLine_snd st l).trans hm]
      simp only [if_true, List.countP_cons_of_pos _ _ hm, unread_set, stepLine_unread]
      by_cases hz : st.unread_fields - 1 = 0
      · rw [if_pos hz, unread_set]
        omega
      · rw [if_neg hz]
        rw [readLoop_unread ls _ (by simp only [unread_set, stepLine_unread]; omega)]
        simp only [unread_set, stepLine_unread]
        omega
    · rw [stepLine_of_no_match st l (Bool.not_eq_true _ ▸ hm)]
      simp only [Bool.false_eq_true, if_false]
      rw [readLoop_unread ls st h1, List.countP_cons_of_neg _ _ hm]

lemma read_meminfo_isSome (lines : List (List Char)) :
    (read_meminfo (some lines)).isSome = true ↔
      (readLoop lines initState).unread_fields = 0 := by
  simp only [read_meminfo]
  by_cases h : 0 < (readLoop lines initState).unread_fields
  · rw [if_pos h]
    simp
    omega
  · rw [if_neg h]
    simp
    omega

/-- C9: the reader counts matching lines with multiplicity: the read
succeeds exactly when at least six lines match a recognized label, and six
repetitions of a single label reach the success path with five counters
never assigned (left uninitialized). -/
theorem C9_match_multiplicity :
    (∀ lines : List (List Char),
        (read_meminfo (some lines)).isSome = true ↔ 6 ≤ lines.countP matchesLabel)
  ∧ (∃ st, read_meminfo (some (List.replicate 6 ("MemTotal: 1".data))) = some st ∧
        st.ram_total = some 1024 ∧ st.ram_free = none ∧ st.ram_available = none ∧
        st.ram_buffers = none ∧ st.ram_cached = none ∧ st.ram_shared = none) := by
  constructor
  · intro lines
    rw [read_meminfo_isSome lines]
    have h := readLoop_unread lines initState (by decide)
    rw [show initState.unread_fields = 6 from rfl] at h
    omega
  · exact ⟨⟨0, some 1024, none, none, none, none, none⟩, by decide, rfl, rfl, rfl, rfl, rfl, rfl⟩

theorem C9_match_multiplicity_witness :
    (read_meminfo (some (List.replicate 6 ("Shmem: 2".data)))).isSome = true :=
  (C9_match_multiplicity.1 (List.replicate 6 ("Shmem: 2".data))).2 (by decide)

/-- C10: the used-memory policy is selected by prefix: a method string
beginning with "memavailable" selects `total - available`, one beginning
with "classical" (and not "memavailable") selects
`total - free - buffers - cached`, and any other method leaves `ram_used`
uninitialized (no rejection or defined fallback occurs). -/
theorem C10_used_method_matching :
    (∀ (m : List Char) (t f a b c : Nat),
        beginsWith m ("memavailable".data) = true →
        compute_used m t f a b c = some (sub64 t a))
  ∧ (∀ (m : List Char) (t f a b c : Nat),
        beginsWith m ("memavailable".data) = false →
        beginsWith m ("classical".data) = true →
        compute_used m t f a b c = some (sub64 (sub64 (sub64 t f) b) c))
  ∧ (∀ (m : List Char) (t f a b c : Nat),
        beginsWith m ("memavailable".data) = false →
        beginsWith m ("classical".data) = false →
        compute_used m t f a b c = none)
  ∧ compute_used ("memavailable_nonsense".data) 100 1 2 3 4 = some (sub64 100 2)
  ∧ compute_used ("mem".data) 100 1 2 3 4 = none := by
  refine ⟨?_, ?_, ?_, by decide, by decide⟩
  · intro m t f a b c h
    simp [compute_used, h]
  · intro m t f a b c h1 h2
    simp [compute_used, h1, h2]
  · intro m t f a b c h1 h2
    simp [compute_used, h1, h2]

theorem C10_used_method_matching_witness :
    compute_used ("classical_v2".data) 10 1 2 3 4 = some (sub64 (sub64 (sub64 10 1) 3) 4) :=
  C10_used_method_matching.2.1 ("classical_v2".data) 10 1 2 3 4 (by decide) (by decide)

end PrintMem
